import Mathlib

/-!
Shallow embedding of the utilesBack repository core:
the in-memory cache manager (src/cache/cacheManager), the generic CRUD
controller (genericController: parseQueryOptions, getAll, getOne, update,
patch, remove, removeMany) and the order controller's stock protocol
(decrementStock, restoreStock, handleStockOnStatusChange).

JavaScript objects/Maps are modelled as association lists over String keys
(a JS Map has unique keys; `aset` overwrites in place like `Map.set` /
object assignment, `aerase` drops the binding like `Map.delete`).
`Date.now()` is an explicit `now : Int` parameter (milliseconds);
`new Date().toISOString()` stored in `createdAt` is modelled by the same
instant as an `Int`.  JS numbers are modelled by `Int` where the code only
ever produces integers, and by `Option DecNum` (an exact decimal
mantissa/scale pair) for `parseFloat` results (`none` models `NaN`; the
exponent-free decimal grammar of the inputs the server receives).
Fallible JS values (`undefined`/missing) are `Option`.
-/

namespace UtilesBack

/-! ### Association-list primitives (JS object / Map model) -/

/-- First binding for a key, like `map.get(k)` / `obj[k]`. -/
def alookup {β : Type} : List (String × β) → String → Option β
  | [], _ => none
  | kv :: rest, k => if kv.1 == k then some kv.2 else alookup rest k

/-- Overwrite-in-place-or-append, like `map.set(k, v)` / `obj[k] = v`
(a JS Map keeps the original insertion position of an existing key). -/
def aset {β : Type} : List (String × β) → String → β → List (String × β)
  | [], k, v => [(k, v)]
  | kv :: rest, k, v => if kv.1 == k then (k, v) :: rest else kv :: aset rest k v

/-- Remove the binding of a key, like `map.delete(k)` (on a unique-key map
removing every occurrence and removing the single occurrence coincide). -/
def aerase {β : Type} (l : List (String × β)) (k : String) : List (String × β) :=
  l.filter (fun kv => kv.1 != k)

/-! ### JavaScript string / number primitives used by the source -/

/-- JS `String.prototype.startsWith`. -/
def jsStartsWith (s p : String) : Bool :=
  p.toList.isPrefixOf s.toList

/-- JS `String.prototype.includes(c)` for a single-character needle. -/
def jsIncludesChar (s : String) (c : Char) : Bool :=
  s.toList.contains c

/-- Value of a string of decimal digits. -/
def digitsToNat (ds : List Char) : Nat :=
  ds.foldl (fun acc c => acc * 10 + (c.toNat - '0'.toNat)) 0

/-- JS whitespace skipped by `parseInt` / `parseFloat`. -/
def isJsSpace (c : Char) : Bool :=
  c == ' ' || c == '\t' || c == '\n' || c == '\r'

/-- JS `parseInt(s)` (radix 10): optional sign, longest digit run at the
front, trailing garbage ignored; `none` models `NaN`. -/
def parseIntJS (s : String) : Option Int :=
  let cs := s.toList.dropWhile isJsSpace
  match cs with
  | '-' :: rest =>
      let ds := rest.takeWhile Char.isDigit
      if ds.isEmpty then none else some (-(digitsToNat ds : Int))
  | '+' :: rest =>
      let ds := rest.takeWhile Char.isDigit
      if ds.isEmpty then none else some (digitsToNat ds : Int)
  | _ =>
      let ds := cs.takeWhile Char.isDigit
      if ds.isEmpty then none else some (digitsToNat ds : Int)

/-- An exact decimal number `mantissa / 10 ^ scale`: the model of a JS
`parseFloat` result (a decimal literal is represented exactly). -/
structure DecNum where
  mantissa : Int
  scale : Nat
deriving DecidableEq

/-- `10 ^ n` over `Int`. -/
def tenPow : Nat → Int
  | 0 => 1
  | n + 1 => 10 * tenPow n

/-- JS `parseFloat(s)` on exponent-free decimal literals: optional sign,
integer digits, optional `.` and fraction digits; `none` models `NaN`. -/
def parseFloatNum (s : String) : Option DecNum :=
  let cs := s.toList.dropWhile isJsSpace
  let signAndRest : Int × List Char :=
    match cs with
    | '-' :: rest => (-1, rest)
    | '+' :: rest => (1, rest)
    | _ => (1, cs)
  let intDs := signAndRest.2.takeWhile Char.isDigit
  let afterInt := signAndRest.2.dropWhile Char.isDigit
  let fracDs :=
    match afterInt with
    | '.' :: r => r.takeWhile Char.isDigit
    | _ => []
  if intDs.isEmpty && fracDs.isEmpty then none
  else some ⟨signAndRest.1 * ((digitsToNat intDs : Int) * tenPow fracDs.length +
      (digitsToNat fracDs : Int)), fracDs.length⟩

/-- JS `String.prototype.split(",")` (single-character separator). -/
def splitOnCommaChars (cs : List Char) : List (List Char) :=
  cs.foldr
    (fun ch acc =>
      match acc with
      | [] => [[ch]]
      | cur :: rest => if ch == ',' then [] :: cur :: rest else (ch :: cur) :: rest)
    [[]]

/-- JS `s.split(',')` as strings. -/
def jsSplitComma (s : String) : List String :=
  (splitOnCommaChars s.toList).map (fun l => String.mk l)

/-- JS `String.prototype.trim()` (whitespace from both ends). -/
def jsTrim (s : String) : String :=
  String.mk (((s.toList.dropWhile isJsSpace).reverse.dropWhile isJsSpace).reverse)

/-- JS `x || d` for an optional number `x` (both `undefined`/`NaN` (`none`)
and `0` are falsy and select the default). -/
def jsOrInt (x : Option Int) (d : Int) : Int :=
  match x with
  | none => d
  | some n => if n = 0 then d else n

/-- JS truthiness of an optional string (missing and `""` are falsy). -/
def truthyStr : Option String → Bool
  | none => false
  | some s => s != ""

/-! ### Cache Manager (cacheManager.js) -/

/-- One stored cache item: `{ data, expiry, createdAt }`. -/
structure CacheEntry (α : Type) where
  data : α
  expiry : Int
  createdAt : Int
deriving DecidableEq

/-- The module-level `cache` Map. -/
abbrev CacheStore (α : Type) := List (String × CacheEntry α)

/-- `DEFAULT_TTL = 5 * 60 * 1000`. -/
def DEFAULT_TTL : Int := 5 * 60 * 1000

/-- `TTL_CONFIG`: collection-pattern rules; the `'default'` key is skipped
by `getTTL`'s loop and used as the fallback. -/
def TTL_CONFIG : List (String × Int) :=
  [("utiles/products", 10 * 60 * 1000), ("default", DEFAULT_TTL)]

/-- `getTTL(key)`: first non-`'default'` rule whose pattern the key starts
with, else the default duration. -/
def getTTL (key : String) : Int :=
  match TTL_CONFIG.find? (fun p => p.1 != "default" && jsStartsWith key p.1) with
  | some p => p.2
  | none => DEFAULT_TTL

/-- `get(key)`: miss when absent; lazily deletes and misses when
`Date.now() > item.expiry`; otherwise returns the data.  Returns the
(possibly mutated) store alongside the result. -/
def cacheGet {α : Type} (now : Int) (store : CacheStore α) (key : String) :
    Option α × CacheStore α :=
  match alookup store key with
  | none => (none, store)
  | some item =>
      if item.expiry < now then (none, aerase store key)
      else (some item.data, store)

/-- Result shape of `getStale`. -/
structure StaleEntry (α : Type) where
  data : α
  expiry : Int
  createdAt : Int
  isExpired : Bool
deriving DecidableEq

/-- `getStale(key)`: the entry regardless of expiry, annotated with the
current expiredness; absent only when no entry exists. -/
def getStale {α : Type} (now : Int) (store : CacheStore α) (key : String) :
    Option (StaleEntry α) :=
  (alookup store key).map fun item =>
    ⟨item.data, item.expiry, item.createdAt, decide (item.expiry < now)⟩

/-- `set(key, data, ttl)`: `effectiveTTL = ttl || getTTL(key)`. -/
def cacheSet {α : Type} (now : Int) (store : CacheStore α) (key : String)
    (data : α) (ttl : Option Int) : CacheStore α :=
  let effectiveTTL := jsOrInt ttl (getTTL key)
  aset store key ⟨data, now + effectiveTTL, now⟩

/-- `invalidatePattern(pat)`: deletes every entry whose key starts with the
pattern, returning the number removed and the remaining store. -/
def invalidatePattern {α : Type} : CacheStore α → String → Nat × CacheStore α
  | [], _ => (0, [])
  | kv :: rest, pat =>
      let r := invalidatePattern rest pat
      if jsStartsWith kv.1 pat then (r.1 + 1, r.2) else (r.1, kv :: r.2)

/-! ### Query Option Parser (genericController.parseQueryOptions) -/

/-- A single MongoDB filter predicate as built by the parser. -/
inductive FilterPred where
  /-- plain equality -/
  | eq (v : String)
  /-- `{ $gte: parseFloat(v) }` -/
  | gte (v : Option DecNum)
  /-- `{ $lte: parseFloat(v) }` -/
  | lte (v : Option DecNum)
  /-- `{ $gt: parseFloat(v) }` -/
  | gt (v : Option DecNum)
  /-- `{ $lt: parseFloat(v) }` -/
  | lt (v : Option DecNum)
  /-- `{ $ne: v }` -/
  | ne (v : String)
  /-- `{ $regex: pat, $options: opts }` -/
  | regex (pat : String) (opts : String)
  /-- `{ $in: vs }` -/
  | inSet (vs : List String)
deriving DecidableEq

/-- The operator-sniffing translation of one string query value. -/
def filterValue (value : String) : FilterPred :=
  if jsStartsWith value "gte:" then .gte (parseFloatNum (value.drop 4))
  else if jsStartsWith value "lte:" then .lte (parseFloatNum (value.drop 4))
  else if jsStartsWith value "gt:" then .gt (parseFloatNum (value.drop 3))
  else if jsStartsWith value "lt:" then .lt (parseFloatNum (value.drop 3))
  else if jsStartsWith value "ne:" then .ne (value.drop 3)
  else if jsStartsWith value "regex:" then .regex (value.drop 6) "i"
  else if jsIncludesChar value ',' then
    .inSet ((jsSplitComma value).map jsTrim)
  else .eq value

/-- The parsed options object. -/
structure QueryOptions where
  filter : List (String × FilterPred)
  sort : List (String × Int)
  skip : Int
  limit : Int
  projection : List String
deriving DecidableEq

/-- Express query object: string-valued parameters. -/
abbrev QueryParams := List (String × String)

/-- `query[k]` as an optional string. -/
def qget (query : QueryParams) (k : String) : Option String :=
  alookup query k

/-- The pagination block of `parseQueryOptions` (returns `(skip, limit)`):
`page = Math.max(1, parseInt(query.page) || 1)`,
`limit = Math.min(100, Math.max(1, parseInt(query.limit) || 10))`. -/
def parsePagination (query : QueryParams) : Int × Int :=
  if truthyStr (qget query "page") && truthyStr (qget query "limit") then
    let page := max 1 (jsOrInt (parseIntJS ((qget query "page").getD "")) 1)
    let lim := min 100 (max 1 (jsOrInt (parseIntJS ((qget query "limit").getD "")) 10))
    ((page - 1) * lim, lim)
  else if truthyStr (qget query "limit") then
    (0, min 100 (max 1 (jsOrInt (parseIntJS ((qget query "limit").getD "")) 10)))
  else (0, 0)

/-- The sort block: `?sort=field:asc,field2:desc`; empty field names are
skipped, `desc` (case-insensitive) maps to `-1`, anything else to `1`. -/
def parseSortSpec (s : String) : List (String × Int) :=
  (s.splitOn ",").foldl
    (fun acc part =>
      let segs := part.splitOn ":"
      let field := segs.headD ""
      if field != "" then
        let ord : Int :=
          match segs[1]? with
          | some o => if o.toLower == "desc" then -1 else 1
          | none => 1
        aset acc field.trim ord
      else acc)
    []

/-- The projection block: `?fields=name,price`; trimmed non-empty tokens
become inclusion fields (`projection[f] = 1` on a JS object keeps the
first position of a repeated field). -/
def parseProjectionFields (s : String) : List String :=
  (s.splitOn ",").foldl
    (fun acc f =>
      if f.trim != "" then (if acc.contains f.trim then acc else acc ++ [f.trim])
      else acc)
    []

/-- `reservedParams = ['page', 'limit', 'sort', 'fields']`. -/
def reservedParams : List String := ["page", "limit", "sort", "fields"]

/-- The filter block: `Object.keys(query).forEach` — every non-reserved
parameter becomes a predicate via `filterValue`, in key order (a JS
object's keys are unique). -/
def buildFilter : QueryParams → List (String × FilterPred)
  | [] => []
  | kv :: rest =>
      if reservedParams.contains kv.1 then buildFilter rest
      else (kv.1, filterValue kv.2) :: buildFilter rest

/-- `parseQueryOptions(query)`. -/
def parseQueryOptions (query : QueryParams) : QueryOptions :=
  let pg := parsePagination query
  let sort :=
    match qget query "sort" with
    | some s => if s != "" then parseSortSpec s else []
    | none => []
  let projection :=
    match qget query "fields" with
    | some s => if s != "" then parseProjectionFields s else []
    | none => []
  ⟨buildFilter query, sort, pg.1, pg.2, projection⟩

/-- Spec-side abbreviation for the effective list limit the implementation
produces from a numeric `limit` parameter: the `[1,100]` clamp, with `0`
(like an unparseable value) first replaced by the hard-coded default 10. -/
def specEffectiveLimit (ln : Int) : Int :=
  min 100 (max 1 (if ln = 0 then 10 else ln))

/-- True when a query value carries none of the six recognized operator
sniff-markers, so that the comma/equality fallbacks of `filterValue`
apply. -/
def noFilterOp (v : String) : Bool :=
  !(jsStartsWith v "gte:" || jsStartsWith v "lte:" || jsStartsWith v "gt:" ||
    jsStartsWith v "lt:" || jsStartsWith v "ne:" || jsStartsWith v "regex:")

/-! ### Generic Document Gateway (genericController.getAll and friends) -/

/-- `JSON.stringify` of a string-valued query object. -/
def jsonOfQuery (q : QueryParams) : String :=
  "\x7b" ++ String.intercalate ","
    (q.map (fun kv => "\"" ++ kv.1 ++ "\":\"" ++ kv.2 ++ "\"")) ++ "\x7d"

/-- `getCacheKey(database, collection, query)`. -/
def getCacheKey (database collection : String) (q : QueryParams) : String :=
  let queryString := if q.length > 0 then ":" ++ jsonOfQuery q else ""
  database ++ "/" ++ collection ++ queryString

/-- The `meta.cache` block attached to a stale response (`expiry` is
serialized as an ISO string of the same instant in the source). -/
structure CacheInfoR where
  createdAt : Int
  expiry : Int
  isExpired : Bool
deriving DecidableEq

/-- `meta` of a list response; `stale`/`cacheInfo` are absent (`none`)
outside the degraded path. -/
structure RespMeta where
  total : Nat
  count : Nat
  database : String
  collection : String
  source : String
  stale : Option Bool
  cacheInfo : Option CacheInfoR
deriving DecidableEq

/-- A list-endpoint JSON response over documents of type `δ`. -/
structure Response (δ : Type) where
  success : Bool
  data : List δ
  meta : RespMeta
  warning : Option String
deriving DecidableEq

/-- `getAll(req, res, next)` for a fixed database/collection/query.
`dbOutcome` is the datastore collaborator's behaviour for this request:
`.ok (documents, total)` or `.error` for a thrown datastore failure (the
datastore is only consulted on a cache miss).  The result is either
`.ok (httpStatus, body)` or `.error e` for `next(error)`; the mutated
cache store is returned alongside (the `catch` block reads the same
mutable Map that `cache.get` may already have deleted from). -/
def getAll {δ : Type} (database collection : String) (q : QueryParams)
    (now : Int) (store : CacheStore (Response δ))
    (dbOutcome : Except Unit (List δ × Nat)) :
    Except Unit (Nat × Response δ) × CacheStore (Response δ) :=
  let cacheKey := getCacheKey database collection q
  let hit := cacheGet now store cacheKey
  match hit.1 with
  | some cached =>
      (.ok (200, { cached with meta := { cached.meta with source := "cache" } }), hit.2)
  | none =>
      match dbOutcome with
      | .ok dt =>
          let response : Response δ :=
            { success := true
              data := dt.1
              meta := { total := dt.2, count := dt.1.length, database := database,
                        collection := collection, source := "database",
                        stale := none, cacheInfo := none }
              warning := none }
          (.ok (200, response), cacheSet now hit.2 cacheKey response none)
      | .error e =>
          match getStale now hit.2 cacheKey with
          | some st =>
              (.ok (200, { st.data with
                  meta := { st.data.meta with
                            source := "cache-stale", stale := some true,
                            cacheInfo := some ⟨st.createdAt, st.expiry, st.isExpired⟩ }
                  warning := some "Serving stale data due to database error" }), hit.2)
          | none => (.error e, hit.2)

/-- A lowercase hexadecimal digit. -/
def isHexLowerDigit (c : Char) : Bool :=
  c.isDigit || (decide ('a' ≤ c) && decide (c ≤ 'f'))

/-- `isValidObjectId(id)` = `ObjectId.isValid(id) && new
ObjectId(id).toString() === id` for string ids: exactly the 24-character
lowercase-hex strings survive the round-trip (any other accepted form
re-serializes differently). -/
def isValidObjectId (id : String) : Bool :=
  id.length == 24 && id.toList.all isHexLowerDigit

/-- A stored document: field name to string value (the fragment of JSON
documents the modelled handlers inspect). -/
abbrev Doc := List (String × String)

/-- The gateway's world state for one database/collection: stored
documents by `_id`, a counter of datastore round trips, and the shared
cache (value type `α`). -/
structure GatewayState (α : Type) where
  docs : List (String × Doc)
  dbCalls : Nat
  cache : CacheStore α
deriving DecidableEq

/-- `$set` application: each update field overwrites/extends the doc. -/
def setFields (doc : Doc) (data : Doc) : Doc :=
  data.foldl (fun d kv => aset d kv.1 kv.2) doc

/-- `getOne`: invalid id → 400 with no datastore call; otherwise one
`findOne` (404 when absent, 200 when found).  Only the HTTP status and
the state are modelled; the JSON body carries no logic. -/
def getOne {α : Type} (st : GatewayState α) (database collection id : String) :
    Nat × GatewayState α :=
  if !(isValidObjectId id) then (400, st)
  else
    let st₁ : GatewayState α := { st with dbCalls := st.dbCalls + 1 }
    match alookup st.docs id with
    | none => (404, st₁)
    | some _ => (200, st₁)

/-- `update` (PUT): id and non-empty-body validation before the single
`findOneAndUpdate`; strips `_id`, stamps `updatedAt`, invalidates the
collection's cache namespace on success. -/
def update {α : Type} (st : GatewayState α) (database collection id : String)
    (body : Doc) (now : Int) : Nat × GatewayState α :=
  if !(isValidObjectId id) then (400, st)
  else if body.isEmpty then (400, st)
  else
    let data := aset (body.filter (fun kv => kv.1 != "_id")) "updatedAt" (toString now)
    let st₁ : GatewayState α := { st with dbCalls := st.dbCalls + 1 }
    match alookup st.docs id with
    | none => (404, st₁)
    | some doc =>
        let st₂ : GatewayState α := { st₁ with docs := aset st₁.docs id (setFields doc data) }
        (200, { st₂ with cache := (invalidatePattern st₂.cache (database ++ "/" ++ collection)).2 })

/-- `patch` (PATCH): same control flow as `update` in the source. -/
def patch {α : Type} (st : GatewayState α) (database collection id : String)
    (body : Doc) (now : Int) : Nat × GatewayState α :=
  if !(isValidObjectId id) then (400, st)
  else if body.isEmpty then (400, st)
  else
    let data := aset (body.filter (fun kv => kv.1 != "_id")) "updatedAt" (toString now)
    let st₁ : GatewayState α := { st with dbCalls := st.dbCalls + 1 }
    match alookup st.docs id with
    | none => (404, st₁)
    | some doc =>
        let st₂ : GatewayState α := { st₁ with docs := aset st₁.docs id (setFields doc data) }
        (200, { st₂ with cache := (invalidatePattern st₂.cache (database ++ "/" ++ collection)).2 })

/-- `remove` (DELETE one): id validation before the single
`findOneAndDelete`. -/
def remove {α : Type} (st : GatewayState α) (database collection id : String) :
    Nat × GatewayState α :=
  if !(isValidObjectId id) then (400, st)
  else
    let st₁ : GatewayState α := { st with dbCalls := st.dbCalls + 1 }
    match alookup st.docs id with
    | none => (404, st₁)
    | some _ =>
        let st₂ : GatewayState α := { st₁ with docs := aerase st₁.docs id }
        (200, { st₂ with cache := (invalidatePattern st₂.cache (database ++ "/" ++ collection)).2 })

/-- Equality-filter matching for `deleteMany` bodies. -/
def matchesEq (doc : Doc) (fil : Doc) : Bool :=
  fil.all (fun kv => alookup doc kv.1 == some kv.2)

/-- `removeMany` (DELETE bulk): refuses an empty/missing filter body with
400 before any datastore call; otherwise one `deleteMany`, returning
`(status, deletedCount, state)`. -/
def removeMany {α : Type} (st : GatewayState α) (database collection : String)
    (fil : Doc) : Nat × Nat × GatewayState α :=
  if fil.isEmpty then (400, 0, st)
  else
    let st₁ : GatewayState α := { st with dbCalls := st.dbCalls + 1 }
    let removed := st₁.docs.filter (fun d => matchesEq d.2 fil)
    let st₂ : GatewayState α := { st₁ with docs := st₁.docs.filter (fun d => !(matchesEq d.2 fil)) }
    (200, removed.length,
      { st₂ with cache := (invalidatePattern st₂.cache (database ++ "/" ++ collection)).2 })

/-! ### Order Status State Machine (orderController) -/

/-- One order line item.  `refid = none` models a missing refid;
`quantity = none` models a value for which `Number(item.quantity)` is
`NaN` (in both cases `Number(q) || 0` yields 0). -/
structure Item where
  refid : Option String
  quantity : Option Int
deriving DecidableEq

/-- `Number(item.quantity) || 0`. -/
def itemQty (it : Item) : Int :=
  it.quantity.getD 0

/-- An order document as the stock protocol reads it
(`stockDescontado = none` models the field being absent; the JS checks
are strict `=== true` / `!== true`). -/
structure Order where
  items : List Item
  stockDescontado : Option Bool
deriving DecidableEq

/-- The products collection: `refid → stock`. -/
abbrev Products := List (String × Int)

/-- `updateOne({refid}, {$inc: {stock: d}})`: increments the stock of the
first document with that refid; no-op when no document matches. -/
def applyInc : Products → String → Int → Products
  | [], _, _ => []
  | kv :: rest, r, d =>
      if kv.1 == r then (kv.1, kv.2 + d) :: rest else kv :: applyInc rest r d

/-- Stock of a refid. -/
def lookupStock (ps : Products) (r : String) : Option Int :=
  alookup ps r

/-- The per-item loop shared by `decrementStock` (`sign = -1`) and
`restoreStock` (`sign = 1`): `if (!refid || quantity <= 0) continue;`
(`!refid` is JS-falsy for both a missing and an empty-string refid). -/
def stockLoop (sign : Int) : List Item → Products → Products
  | [], ps => ps
  | it :: rest, ps =>
      match it.refid with
      | none => stockLoop sign rest ps
      | some r =>
          if r == "" || decide (itemQty it ≤ 0) then stockLoop sign rest ps
          else stockLoop sign rest (applyInc ps r (sign * itemQty it))

/-- Net quantity the loop applies to refid `r` (skipped items count 0). -/
def validQty : List Item → String → Int
  | [], _ => 0
  | it :: rest, r =>
      (match it.refid with
       | none => 0
       | some rr =>
           if rr == "" || decide (itemQty it ≤ 0) then 0
           else if rr == r then itemQty it else 0)
      + validQty rest r

/-- The order controller's world state: the products collection plus the
shared cache (value type `α`), both mutated by the stock helpers. -/
structure OrderState (α : Type) where
  products : Products
  cache : CacheStore α
deriving DecidableEq

/-- `decrementStock(order)`: no-op returning `false` when
`stockDescontado === true` or the items list is missing/empty; otherwise
decrements stock per item, invalidates `utiles/products`, returns `true`. -/
def decrementStock {α : Type} (order : Order) (st : OrderState α) :
    Bool × OrderState α :=
  if order.stockDescontado == some true then (false, st)
  else if order.items.isEmpty then (false, st)
  else
    (true,
      { products := stockLoop (-1) order.items st.products
        cache := (invalidatePattern st.cache "utiles/products").2 })

/-- `restoreStock(order)`: no-op returning `false` unless
`stockDescontado === true` and the items list is non-empty; otherwise
increments stock per item, invalidates `utiles/products`, returns `true`. -/
def restoreStock {α : Type} (order : Order) (st : OrderState α) :
    Bool × OrderState α :=
  if !(order.stockDescontado == some true) then (false, st)
  else if order.items.isEmpty then (false, st)
  else
    (true,
      { products := stockLoop 1 order.items st.products
        cache := (invalidatePattern st.cache "utiles/products").2 })

/-- `STOCK_REQUIRED_STATUSES`. -/
def STOCK_REQUIRED_STATUSES : List String := ["ready", "shipped", "delivered"]

/-- `VALID_STATUSES`. -/
def VALID_STATUSES : List String :=
  ["pending", "ready", "shipped", "delivered", "cancelled"]

/-- `handleStockOnStatusChange(order, newStatus)`: returns the
`{stockDescontado}` fragment merged into the order's `$set` (or `none`
for no flag change) alongside the mutated state. -/
def handleStockOnStatusChange {α : Type} (order : Order) (newStatus : String)
    (st : OrderState α) : Option Bool × OrderState α :=
  if STOCK_REQUIRED_STATUSES.contains newStatus then
    let r := decrementStock order st
    (if r.1 then some true else none, r.2)
  else if newStatus == "cancelled" then
    let r := restoreStock order st
    (if r.1 then some false else none, r.2)
  else (none, st)

/-- The flag stored on the order after `updateStatus` merges the stock
fragment into its `$set` (a `none` fragment leaves the field untouched). -/
def mergedFlag (order : Order) (upd : Option Bool) : Option Bool :=
  match upd with
  | some b => some b
  | none => order.stockDescontado

/-- A concrete cached list response, used to exhibit the degraded path of
`getAll`. -/
def exampleListResponse : Response Nat :=
  ⟨true, [1, 2], ⟨2, 2, "utiles", "products", "database", none, none⟩, none⟩

/-- A cache holding that response under the parameterless products list
key, created at t = 50 with expiry t = 100. -/
def exampleStaleStore : CacheStore (Response Nat) :=
  [("utiles/products", ⟨exampleListResponse, 100, 50⟩)]

/-! ### Helper lemmas about the association-list primitives -/

theorem alookup_aset {β : Type} (l : List (String × β)) (k : String) (v : β)
    (k' : String) :
    alookup (aset l k v) k' = if k' = k then some v else alookup l k' := by
  induction l with
  | nil =>
      by_cases h : k' = k
      · subst h; simp [alookup, aset]
      · have h1 : ¬ k = k' := fun hh => h hh.symm
        simp [alookup, aset, h, h1]
  | cons kv rest ih =>
      by_cases hk : kv.1 = k
      · by_cases h : k' = k
        · subst h; simp [alookup, aset, hk]
        · have h1 : ¬ k = k' := fun hh => h hh.symm
          have h2 : ¬ kv.1 = k' := fun hh => h (hh.symm.trans hk)
          simp [alookup, aset, hk, h, h1, h2]
      · by_cases hk' : kv.1 = k'
        · have h : ¬ k' = k := fun hh => hk (hk'.trans hh)
          simp [alookup, aset, hk, hk', h]
        · simp [alookup, aset, hk, hk', ih]

theorem alookup_aerase {β : Type} (l : List (String × β)) (k k' : String) :
    alookup (aerase l k) k' = if k' = k then none else alookup l k' := by
  induction l with
  | nil =>
      by_cases h : k' = k <;> simp [alookup, aerase, h]
  | cons kv rest ih =>
      simp only [aerase] at ih ⊢
      by_cases hk : kv.1 = k
      · by_cases h : k' = k
        · subst h; simp [alookup, List.filter_cons, hk, ih]
        · have h3 : ¬ kv.1 = k' := fun hh => h (hh.symm.trans hk)
          have h4 : ¬ k = k' := fun hh => h hh.symm
          simp [alookup, List.filter_cons, hk, h, h3, h4, ih]
      · by_cases hk' : kv.1 = k'
        · have h : ¬ k' = k := fun hh => hk (hk'.trans hh)
          simp [alookup, List.filter_cons, hk, hk', h, ih]
        · simp [alookup, List.filter_cons, hk, hk', ih]

/-! ### C3: cache `get` / `getStale` semantics -/

/-- C3: `get` returns the stored value exactly while `now ≤ expiry`, and
once `now > expiry` behaves as a miss and removes the entry; `getStale`
returns the entry with its data, expiry, creation time and current
expiredness regardless of expiry, and is absent only when no entry exists;
in particular a non-stale read never returns an entry after `now > expiry`. -/
theorem cache_get_getStale_spec {α : Type} (now : Int) (store : CacheStore α)
    (key : String) :
    (∀ e, alookup store key = some e → now ≤ e.expiry →
        cacheGet now store key = (some e.data, store)) ∧
    (∀ e, alookup store key = some e → e.expiry < now →
        cacheGet now store key = (none, aerase store key) ∧
        alookup (aerase store key) key = none) ∧
    (alookup store key = none → cacheGet now store key = (none, store)) ∧
    (∀ e, alookup store key = some e →
        getStale now store key =
          some ⟨e.data, e.expiry, e.createdAt, decide (e.expiry < now)⟩) ∧
    (alookup store key = none → getStale now store key = none) ∧
    (∀ e, alookup store key = some e → e.expiry < now →
        (cacheGet now store key).1 = none) := by
  refine ⟨?_, ?_, ?_, ?_, ?_, ?_⟩
  · intro e he hle
    simp [cacheGet, he, not_lt.mpr hle]
  · intro e he hlt
    exact ⟨by simp [cacheGet, he, hlt], by simp [alookup_aerase]⟩
  · intro h; simp [cacheGet, h]
  · intro e he; simp [getStale, he]
  · intro h; simp [getStale, h]
  · intro e he hlt; simp [cacheGet, he, hlt]

/-- Witness for C3 at a concrete store: a live hit at `now = 50`, and the
expired behaviour of both reads at `now = 200`. -/
theorem cache_get_getStale_spec_witness :
    cacheGet 50 [("k", (⟨5, 100, 10⟩ : CacheEntry Nat))] "k" =
      (some 5, [("k", ⟨5, 100, 10⟩)]) ∧
    (cacheGet 200 [("k", (⟨5, 100, 10⟩ : CacheEntry Nat))] "k").1 = none ∧
    getStale 200 [("k", (⟨5, 100, 10⟩ : CacheEntry Nat))] "k" =
      some ⟨5, 100, 10, true⟩ := by
  refine ⟨?_, ?_, ?_⟩
  · exact (cache_get_getStale_spec 50 [("k", ⟨5, 100, 10⟩)] "k").1
      ⟨5, 100, 10⟩ (by decide) (by decide)
  · exact (cache_get_getStale_spec 200 [("k", ⟨5, 100, 10⟩)] "k").2.2.2.2.2
      ⟨5, 100, 10⟩ (by decide) (by decide)
  · have h := (cache_get_getStale_spec 200
      [("k", (⟨5, 100, 10⟩ : CacheEntry Nat))] "k").2.2.2.1 ⟨5, 100, 10⟩ (by decide)
    simpa using h

/-! ### C4: cache `set` and TTL resolution -/

/-- C4 (amended): `set` always inserts or overwrites the entry for its
key and leaves every other key untouched; the entry's expiry is `now`
plus the explicit ttl argument when one is given and nonzero (a ttl of 0
is JS-falsy and falls back exactly like an absent one), otherwise the
duration of the configured rule whose pattern prefixes the key, otherwise
the single default duration. -/
theorem cache_set_ttl_spec {α : Type} (now : Int) (store : CacheStore α)
    (key : String) (d : α) (ttl : Option Int) :
    (∀ t, ttl = some t → t ≠ 0 →
        alookup (cacheSet now store key d ttl) key = some ⟨d, now + t, now⟩) ∧
    (ttl = none →
        alookup (cacheSet now store key d ttl) key =
          some ⟨d, now + getTTL key, now⟩) ∧
    (getTTL key = if jsStartsWith key "utiles/products" then 600000 else 300000) ∧
    (∀ k', k' ≠ key →
        alookup (cacheSet now store key d ttl) k' = alookup store k') := by
  refine ⟨?_, ?_, ?_, ?_⟩
  · intro t ht hnz
    subst ht
    simp [cacheSet, jsOrInt, hnz, alookup_aset]
  · intro ht
    subst ht
    simp [cacheSet, jsOrInt, alookup_aset]
  · by_cases h : jsStartsWith key "utiles/products" <;>
      simp [getTTL, TTL_CONFIG, DEFAULT_TTL, List.find?, h] <;> norm_num
  · intro k' hk'
    simp [cacheSet, alookup_aset, hk']

/-- Witness for C4: an explicit nonzero ttl is used verbatim, an omitted
ttl resolves by prefix rule (10 min for a `utiles/products` key, 5 min
default otherwise), and other keys are untouched. -/
theorem cache_set_ttl_spec_witness :
    alookup (cacheSet 1000 ([] : CacheStore Nat) "k" 7 (some 50)) "k" =
      some ⟨7, 1050, 1000⟩ ∧
    alookup (cacheSet 1000 ([] : CacheStore Nat) "utiles/products:q" 7 none)
      "utiles/products:q" = some ⟨7, 601000, 1000⟩ ∧
    alookup (cacheSet 1000 ([] : CacheStore Nat) "db/col" 7 none) "db/col" =
      some ⟨7, 301000, 1000⟩ ∧
    alookup (cacheSet 1000 [("other", (⟨9, 8, 7⟩ : CacheEntry Nat))] "k" 7 none)
      "other" = some ⟨9, 8, 7⟩ := by
  refine ⟨?_, ?_, ?_, ?_⟩
  · exact (cache_set_ttl_spec 1000 [] "k" 7 (some 50)).1 50 rfl (by decide)
  · have h := (cache_set_ttl_spec 1000 ([] : CacheStore Nat)
      "utiles/products:q" 7 none).2.1 rfl
    rw [h]
    have ht := (cache_set_ttl_spec 1000 ([] : CacheStore Nat)
      "utiles/products:q" (7 : Nat) none).2.2.1
    rw [ht]
    decide
  · have h := (cache_set_ttl_spec 1000 ([] : CacheStore Nat) "db/col" 7 none).2.1 rfl
    rw [h]
    have ht := (cache_set_ttl_spec 1000 ([] : CacheStore Nat)
      "db/col" (7 : Nat) none).2.2.1
    rw [ht]
    decide
  · exact (cache_set_ttl_spec 1000 [("other", ⟨9, 8, 7⟩)] "k" 7 none).2.2.2
      "other" (by decide)

/-- C4 counterexample: `set("k", 7, 0)` with an explicit ttl of 0 stores
expiry `now + 300000` (the resolved default TTL), not `now + 0`, because
`ttl || getTTL(key)` treats 0 as falsy. -/
theorem cache_set_zero_ttl_cex :
    alookup (cacheSet 1000 ([] : CacheStore Nat) "k" 7 (some 0)) "k" =
      some ⟨7, 301000, 1000⟩ ∧ (301000 : Int) ≠ 1000 + 0 := by
  exact ⟨by decide, by decide⟩

/-! ### C7: pattern invalidation -/

/-- C7: `invalidatePattern` removes exactly the entries whose key starts
with the given pattern, returns the number removed, and leaves every
other entry retrievable unchanged. -/
theorem invalidatePattern_spec {α : Type} (store : CacheStore α) (pat : String) :
    (invalidatePattern store pat).1 =
      (store.filter (fun kv => jsStartsWith kv.1 pat)).length ∧
    (∀ k, jsStartsWith k pat = true →
        alookup (invalidatePattern store pat).2 k = none) ∧
    (∀ k, jsStartsWith k pat = false →
        alookup (invalidatePattern store pat).2 k = alookup store k) := by
  induction store with
  | nil => exact ⟨rfl, fun k _ => rfl, fun k _ => rfl⟩
  | cons kv rest ih =>
      refine ⟨?_, ?_, ?_⟩
      · by_cases h : jsStartsWith kv.1 pat <;>
          simp [invalidatePattern, List.filter_cons, h, ih.1]
      · intro k hk
        by_cases h : jsStartsWith kv.1 pat
        · simp [invalidatePattern, h, ih.2.1 k hk]
        · have hne : ¬ kv.1 = k := fun hh => h (by rw [hh]; exact hk)
          simp [invalidatePattern, h, alookup, hne, ih.2.1 k hk]
      · intro k hk
        by_cases h : jsStartsWith kv.1 pat
        · have hne : ¬ kv.1 = k := fun hh => by rw [hh] at h; simp [h] at hk
          simp [invalidatePattern, h, ih.2.2 k hk, alookup, hne]
        · by_cases hb : kv.1 = k
          · simp [invalidatePattern, h, alookup, hb, hk]
          · simp [invalidatePattern, h, alookup, hb, hk, ih.2.2 k hk]

/-- Witness for C7: the spec's concrete scenario — three entries, the
pattern removes the two `db/col` reads, returns 2, and `db/other` is
still retrievable. -/
theorem invalidatePattern_spec_witness :
    (invalidatePattern
      [("db/col:a", (⟨1, 0, 0⟩ : CacheEntry Nat)), ("db/col:b", ⟨2, 0, 0⟩),
       ("db/other", ⟨3, 0, 0⟩)] "db/col").1 = 2 ∧
    alookup (invalidatePattern
      [("db/col:a", (⟨1, 0, 0⟩ : CacheEntry Nat)), ("db/col:b", ⟨2, 0, 0⟩),
       ("db/other", ⟨3, 0, 0⟩)] "db/col").2 "db/col:a" = none ∧
    alookup (invalidatePattern
      [("db/col:a", (⟨1, 0, 0⟩ : CacheEntry Nat)), ("db/col:b", ⟨2, 0, 0⟩),
       ("db/other", ⟨3, 0, 0⟩)] "db/col").2 "db/other" = some ⟨3, 0, 0⟩ := by
  refine ⟨?_, ?_, ?_⟩
  · rw [(invalidatePattern_spec
      [("db/col:a", (⟨1, 0, 0⟩ : CacheEntry Nat)), ("db/col:b", ⟨2, 0, 0⟩),
       ("db/other", ⟨3, 0, 0⟩)] "db/col").1]
    decide
  · exact (invalidatePattern_spec
      [("db/col:a", (⟨1, 0, 0⟩ : CacheEntry Nat)), ("db/col:b", ⟨2, 0, 0⟩),
       ("db/other", ⟨3, 0, 0⟩)] "db/col").2.1 "db/col:a" (by decide)
  · rw [(invalidatePattern_spec
      [("db/col:a", (⟨1, 0, 0⟩ : CacheEntry Nat)), ("db/col:b", ⟨2, 0, 0⟩),
       ("db/other", ⟨3, 0, 0⟩)] "db/col").2.2 "db/other" (by decide)]
    decide

/-! ### C5 and C9: pagination parsing -/

theorem parseQueryOptions_skip (query : QueryParams) :
    (parseQueryOptions query).skip = (parsePagination query).1 := rfl

theorem parseQueryOptions_limit (query : QueryParams) :
    (parseQueryOptions query).limit = (parsePagination query).2 := rfl

theorem parseQueryOptions_filter_eq (query : QueryParams) :
    (parseQueryOptions query).filter = buildFilter query := rfl

theorem max_jsOr_page (pn : Int) : max 1 (jsOrInt (some pn) 1) = max 1 pn := by
  by_cases h0 : pn = 0
  · subst h0; simp [jsOrInt]
  · simp [jsOrInt, h0]

theorem min_jsOr_limit (ln : Int) :
    min 100 (max 1 (jsOrInt (some ln) 10)) = specEffectiveLimit ln := by
  by_cases h0 : ln = 0 <;> simp [jsOrInt, specEffectiveLimit, h0]

/-- C5 (amended): with numeric `page` and `limit` both given,
`skip = (max(1,page)-1) * L` and `limit = L`, where `L` is the `[1,100]`
clamp of the parsed limit after a parsed value of 0 (JS-falsy, exactly
like an unparseable one) is replaced by the hard-coded default 10; with
only `limit` given, `skip = 0` and `limit = L`; with `limit` absent (in
particular with no pagination parameters at all), `limit = 0` and
`skip = 0`. -/
theorem pagination_spec (query : QueryParams) (ps ls : String) (pn ln : Int) :
    (qget query "page" = some ps → ps ≠ "" → parseIntJS ps = some pn →
     qget query "limit" = some ls → ls ≠ "" → parseIntJS ls = some ln →
       (parseQueryOptions query).skip = (max 1 pn - 1) * specEffectiveLimit ln ∧
       (parseQueryOptions query).limit = specEffectiveLimit ln) ∧
    (truthyStr (qget query "page") = false →
     qget query "limit" = some ls → ls ≠ "" → parseIntJS ls = some ln →
       (parseQueryOptions query).skip = 0 ∧
       (parseQueryOptions query).limit = specEffectiveLimit ln) ∧
    (truthyStr (qget query "limit") = false →
       (parseQueryOptions query).skip = 0 ∧ (parseQueryOptions query).limit = 0) := by
  refine ⟨?_, ?_, ?_⟩
  · intro hp hpne hpn hl hlne hln
    have ht1 : truthyStr (some ps) = true := by simp [truthyStr, hpne]
    have ht2 : truthyStr (some ls) = true := by simp [truthyStr, hlne]
    rw [parseQueryOptions_skip, parseQueryOptions_limit]
    simp only [parsePagination, hp, hl, Option.getD_some, hpn, hln, ht1, ht2,
      Bool.and_self, if_true]
    rw [max_jsOr_page, min_jsOr_limit]
    exact ⟨rfl, rfl⟩
  · intro ht1 hl hlne hln
    have ht2 : truthyStr (some ls) = true := by simp [truthyStr, hlne]
    rw [parseQueryOptions_skip, parseQueryOptions_limit]
    simp only [parsePagination, hl, Option.getD_some, hln, ht1, ht2,
      Bool.false_and, Bool.false_eq_true, if_false, if_true]
    rw [min_jsOr_limit]
    exact ⟨trivial, rfl⟩
  · intro ht2
    rw [parseQueryOptions_skip, parseQueryOptions_limit]
    simp [parsePagination, ht2]

/-- C5 counterexample: `limit="0"` parses to the number 0, yet the
effective limit is the fallback 10, not `clamp(0,1,100) = 1`. -/
theorem pagination_zero_limit_cex :
    (parseQueryOptions [("limit", "0")]).limit = 10 ∧
    (10 : Int) ≠ min 100 (max 1 0) := by
  exact ⟨by decide, by decide⟩

/-- Witness for C5 at `?page=2&limit=5`: skip 5, limit 5. -/
theorem pagination_spec_witness :
    (parseQueryOptions [("page", "2"), ("limit", "5")]).skip = 5 ∧
    (parseQueryOptions [("page", "2"), ("limit", "5")]).limit = 5 := by
  have h := (pagination_spec [("page", "2"), ("limit", "5")] "2" "5" 2 5).1
    (by decide) (by decide) (by decide) (by decide) (by decide) (by decide)
  exact ⟨by rw [h.1]; decide, by rw [h.2]; decide⟩

/-- C9: a present-but-unparseable `limit` is silently coerced to the
hard-coded fallback 10 (inside the `[1,100]` clamp) instead of being
rejected or treated as absent; with a numeric `page` also present,
`skip = (max(1,page)-1) * 10`. -/
theorem limit_nonnumeric_fallback_spec (query : QueryParams) (ls ps : String)
    (pn : Int) :
    (qget query "limit" = some ls → ls ≠ "" → parseIntJS ls = none →
     truthyStr (qget query "page") = false →
       (parseQueryOptions query).limit = 10 ∧ (parseQueryOptions query).skip = 0) ∧
    (qget query "limit" = some ls → ls ≠ "" → parseIntJS ls = none →
     qget query "page" = some ps → ps ≠ "" → parseIntJS ps = some pn →
       (parseQueryOptions query).limit = 10 ∧
       (parseQueryOptions query).skip = (max 1 pn - 1) * 10) := by
  constructor
  · intro hl hlne hln ht1
    have ht2 : truthyStr (some ls) = true := by simp [truthyStr, hlne]
    rw [parseQueryOptions_skip, parseQueryOptions_limit]
    simp only [parsePagination, hl, Option.getD_some, hln, ht1, ht2,
      Bool.false_and, Bool.false_eq_true, if_false, if_true]
    exact ⟨by simp [jsOrInt], trivial⟩
  · intro hl hlne hln hp hpne hpn
    have ht1 : truthyStr (some ps) = true := by simp [truthyStr, hpne]
    have ht2 : truthyStr (some ls) = true := by simp [truthyStr, hlne]
    rw [parseQueryOptions_skip, parseQueryOptions_limit]
    simp only [parsePagination, hp, hl, Option.getD_some, hpn, hln, ht1, ht2,
      Bool.and_self, if_true]
    rw [max_jsOr_page]
    constructor
    · simp [jsOrInt]
    · simp [jsOrInt]

/-- Witness for C9 at `?limit=abc` and `?page=3&limit=abc`. -/
theorem limit_nonnumeric_fallback_spec_witness :
    (parseQueryOptions [("limit", "abc")]).limit = 10 ∧
    (parseQueryOptions [("limit", "abc")]).skip = 0 ∧
    (parseQueryOptions [("page", "3"), ("limit", "abc")]).skip = 20 := by
  have h1 := (limit_nonnumeric_fallback_spec [("limit", "abc")] "abc" "" 0).1
    (by decide) (by decide) (by decide) (by decide)
  have h2 := (limit_nonnumeric_fallback_spec
      [("page", "3"), ("limit", "abc")] "abc" "3" 3).2
    (by decide) (by decide) (by decide) (by decide) (by decide) (by decide)
  exact ⟨h1.1, h1.2, by rw [h2.2]; decide⟩

/-! ### C6: filter construction -/

theorem isPrefixOf_head_excl {a b : Char} (as bs cs : List Char) (hab : b ≠ a)
    (h : List.isPrefixOf (a :: as) cs = true) :
    List.isPrefixOf (b :: bs) cs = false := by
  cases cs with
  | nil => simp [List.isPrefixOf] at h
  | cons c cs' =>
      simp only [List.isPrefixOf, Bool.and_eq_true, beq_iff_eq] at h
      have hbc : ¬ b = c := fun hh => hab (hh.trans h.1.symm)
      simp [List.isPrefixOf, hbc]

theorem gt_not_gte (v : String) (h : jsStartsWith v "gt:" = true) :
    jsStartsWith v "gte:" = false := by
  unfold jsStartsWith at h ⊢
  have e1 : "gt:".toList = ['g', 't', ':'] := rfl
  have e2 : "gte:".toList = ['g', 't', 'e', ':'] := rfl
  rw [e1] at h
  rw [e2]
  rcases hl : v.toList with _ | ⟨c1, _ | ⟨c2, _ | ⟨c3, rest⟩⟩⟩ <;>
    rw [hl] at h <;>
    simp_all [List.isPrefixOf, beq_iff_eq] <;>
    exact fun _ _ he => absurd (h.2.2.trans he.symm) (by decide)

theorem lt_not_lte (v : String) (h : jsStartsWith v "lt:" = true) :
    jsStartsWith v "lte:" = false := by
  unfold jsStartsWith at h ⊢
  have e1 : "lt:".toList = ['l', 't', ':'] := rfl
  have e2 : "lte:".toList = ['l', 't', 'e', ':'] := rfl
  rw [e1] at h
  rw [e2]
  rcases hl : v.toList with _ | ⟨c1, _ | ⟨c2, _ | ⟨c3, rest⟩⟩⟩ <;>
    rw [hl] at h <;>
    simp_all [List.isPrefixOf, beq_iff_eq] <;>
    exact fun _ _ he => absurd (h.2.2.trans he.symm) (by decide)

theorem alookup_buildFilter (query : QueryParams) (k : String) :
    (reservedParams.contains k = true → alookup (buildFilter query) k = none) ∧
    (reservedParams.contains k = false →
        alookup (buildFilter query) k = (qget query k).map filterValue) := by
  induction query with
  | nil => exact ⟨fun _ => rfl, fun _ => rfl⟩
  | cons kv rest ih =>
      constructor
      · intro hk
        by_cases hr : reservedParams.contains kv.1 = true
        · simp only [buildFilter]
          rw [if_pos hr]
          exact ih.1 hk
        · have hne : ¬ kv.1 = k := fun hh => hr (by rw [hh]; exact hk)
          simp only [buildFilter]
          rw [if_neg hr]
          simp [alookup, hne, ih.1 hk]
      · intro hk
        by_cases hr : reservedParams.contains kv.1 = true
        · have hne : ¬ kv.1 = k := fun hh => by
            rw [hh] at hr; rw [hr] at hk; exact Bool.noConfusion hk
          simp only [buildFilter]
          rw [if_pos hr, ih.2 hk]
          simp [qget, alookup, hne]
        · by_cases hb : kv.1 = k
          · simp only [buildFilter]
            rw [if_neg hr]
            simp [qget, alookup, hb]
          · simp only [buildFilter]
            rw [if_neg hr]
            simp [qget, alookup, hb, ih.2 hk]

/-- C6: the parsed filter contains exactly the non-reserved parameters
(the names `page`, `limit`, `sort`, `fields` never appear), and each
string value maps by prefix: `gte:`/`lte:`/`gt:`/`lt:` to the matching
numeric range predicate over the parsed remainder, `ne:` to an
inequality predicate, `regex:` to a case-insensitive regex predicate, a
comma-containing value without one of those markers to set membership
over its trimmed comma-separated parts, and anything else to equality. -/
theorem filter_construction_spec (query : QueryParams) (k v : String) :
    (reservedParams.contains k = true →
        alookup (parseQueryOptions query).filter k = none) ∧
    (reservedParams.contains k = false →
        alookup (parseQueryOptions query).filter k = (qget query k).map filterValue) ∧
    (jsStartsWith v "gte:" = true → filterValue v = .gte (parseFloatNum (v.drop 4))) ∧
    (jsStartsWith v "lte:" = true → filterValue v = .lte (parseFloatNum (v.drop 4))) ∧
    (jsStartsWith v "gt:" = true → filterValue v = .gt (parseFloatNum (v.drop 3))) ∧
    (jsStartsWith v "lt:" = true → filterValue v = .lt (parseFloatNum (v.drop 3))) ∧
    (jsStartsWith v "ne:" = true → filterValue v = .ne (v.drop 3)) ∧
    (jsStartsWith v "regex:" = true → filterValue v = .regex (v.drop 6) "i") ∧
    (noFilterOp v = true → jsIncludesChar v ',' = true →
        filterValue v = .inSet ((jsSplitComma v).map jsTrim)) ∧
    (noFilterOp v = true → jsIncludesChar v ',' = false → filterValue v = .eq v) := by
  refine ⟨?_, ?_, ?_, ?_, ?_, ?_, ?_, ?_, ?_, ?_⟩
  · intro hk
    rw [parseQueryOptions_filter_eq]
    exact (alookup_buildFilter query k).1 hk
  · intro hk
    rw [parseQueryOptions_filter_eq]
    exact (alookup_buildFilter query k).2 hk
  · intro h
    simp [filterValue, h]
  · intro h
    have h' : List.isPrefixOf ("lte:".toList) v.toList = true := h
    have hg : jsStartsWith v "gte:" = false :=
      isPrefixOf_head_excl _ _ _ (by decide) h'
    simp [filterValue, h, hg]
  · intro h
    have h' : List.isPrefixOf ("gt:".toList) v.toList = true := h
    have hgte : jsStartsWith v "gte:" = false := gt_not_gte v h
    have hlte : jsStartsWith v "lte:" = false :=
      isPrefixOf_head_excl _ _ _ (by decide) h'
    simp [filterValue, h, hgte, hlte]
  · intro h
    have h' : List.isPrefixOf ("lt:".toList) v.toList = true := h
    have hgte : jsStartsWith v "gte:" = false :=
      isPrefixOf_head_excl _ _ _ (by decide) h'
    have hlte : jsStartsWith v "lte:" = false := lt_not_lte v h
    have hgt : jsStartsWith v "gt:" = false :=
      isPrefixOf_head_excl _ _ _ (by decide) h'
    simp [filterValue, h, hgte, hlte, hgt]
  · intro h
    have h' : List.isPrefixOf ("ne:".toList) v.toList = true := h
    have hgte : jsStartsWith v "gte:" = false :=
      isPrefixOf_head_excl _ _ _ (by decide) h'
    have hlte : jsStartsWith v "lte:" = false :=
      isPrefixOf_head_excl _ _ _ (by decide) h'
    have hgt : jsStartsWith v "gt:" = false :=
      isPrefixOf_head_excl _ _ _ (by decide) h'
    have hlt : jsStartsWith v "lt:" = false :=
      isPrefixOf_head_excl _ _ _ (by decide) h'
    simp [filterValue, h, hgte, hlte, hgt, hlt]
  · intro h
    have h' : List.isPrefixOf ("regex:".toList) v.toList = true := h
    have hgte : jsStartsWith v "gte:" = false :=
      isPrefixOf_head_excl _ _ _ (by decide) h'
    have hlte : jsStartsWith v "lte:" = false :=
      isPrefixOf_head_excl _ _ _ (by decide) h'
    have hgt : jsStartsWith v "gt:" = false :=
      isPrefixOf_head_excl _ _ _ (by decide) h'
    have hlt : jsStartsWith v "lt:" = false :=
      isPrefixOf_head_excl _ _ _ (by decide) h'
    have hne2 : jsStartsWith v "ne:" = false :=
      isPrefixOf_head_excl _ _ _ (by decide) h'
    simp [filterValue, h, hgte, hlte, hgt, hlt, hne2]
  · intro hno hc
    simp only [noFilterOp, Bool.not_eq_true', Bool.or_eq_false_iff] at hno
    obtain ⟨⟨⟨⟨⟨h1, h2⟩, h3⟩, h4⟩, h5⟩, h6⟩ := hno
    simp [filterValue, h1, h2, h3, h4, h5, h6, hc]
  · intro hno hc
    simp only [noFilterOp, Bool.not_eq_true', Bool.or_eq_false_iff] at hno
    obtain ⟨⟨⟨⟨⟨h1, h2⟩, h3⟩, h4⟩, h5⟩, h6⟩ := hno
    simp [filterValue, h1, h2, h3, h4, h5, h6, hc]

/-- Witness for C6: reserved `page` is absent from the filter while
`category`, a `gte:` range, and a comma list map to their predicates. -/
theorem filter_construction_spec_witness :
    alookup (parseQueryOptions
      [("page", "2"), ("category", "pens"), ("price", "gte:10")]).filter
      "page" = none ∧
    alookup (parseQueryOptions
      [("page", "2"), ("category", "pens"), ("price", "gte:10")]).filter
      "category" = some (.eq "pens") ∧
    alookup (parseQueryOptions
      [("page", "2"), ("category", "pens"), ("price", "gte:10")]).filter
      "price" = some (.gte (some ⟨10, 0⟩)) ∧
    filterValue "tag1, tag2" = .inSet ["tag1", "tag2"] := by
  refine ⟨?_, ?_, ?_, ?_⟩
  · exact (filter_construction_spec
      [("page", "2"), ("category", "pens"), ("price", "gte:10")] "page" "").1
      (by decide)
  · rw [(filter_construction_spec
      [("page", "2"), ("category", "pens"), ("price", "gte:10")] "category" "").2.1
      (by decide)]
    decide
  · rw [(filter_construction_spec
      [("page", "2"), ("category", "pens"), ("price", "gte:10")] "price" "").2.1
      (by decide)]
    decide
  · rw [(filter_construction_spec [] "k" "tag1, tag2").2.2.2.2.2.2.2.2.1
      (by decide) (by decide)]
    decide

/-! ### C1 and C10: the stock protocol -/

theorem lookupStock_applyInc (ps : Products) (r : String) (d : Int) (r' : String) :
    lookupStock (applyInc ps r d) r' =
      if r' = r then (lookupStock ps r').map (fun v => v + d)
      else lookupStock ps r' := by
  induction ps with
  | nil => by_cases h : r' = r <;> simp [lookupStock, alookup, applyInc, h]
  | cons kv rest ih =>
      simp only [lookupStock] at ih ⊢
      by_cases hk : kv.1 = r
      · by_cases h : r' = r
        · have hb : kv.1 = r' := by rw [hk, h]
          simp [applyInc, alookup, hk, h, hb]
        · have hb : ¬ kv.1 = r' := fun hh => h (hh.symm.trans hk)
          have h2 : ¬ r = r' := fun hh => h hh.symm
          simp [applyInc, alookup, hk, h, h2, hb]
      · by_cases hb : kv.1 = r'
        · have h : ¬ r' = r := fun hh => hk (hb.trans hh)
          simp [applyInc, alookup, hk, hb, h]
        · simp [applyInc, alookup, hk, hb, ih]

theorem lookupStock_stockLoop (items : List Item) (sign : Int) (ps : Products)
    (r : String) :
    lookupStock (stockLoop sign items ps) r =
      (lookupStock ps r).map (fun v => v + sign * validQty items r) := by
  induction items generalizing ps with
  | nil => cases h : lookupStock ps r <;> simp [stockLoop, validQty, h]
  | cons it rest ih =>
      cases hr : it.refid with
      | none =>
          have hv : validQty (it :: rest) r = validQty rest r := by
            simp [validQty, hr]
          simp [stockLoop, hr, hv, ih]
      | some rr =>
          by_cases hskip : (rr == "" || decide (itemQty it ≤ 0)) = true
          · have hv : validQty (it :: rest) r = validQty rest r := by
              simp only [validQty, hr, hskip, if_true, zero_add]
            simp [stockLoop, hr, hskip, hv, ih]
          · have hskipf : (rr == "" || decide (itemQty it ≤ 0)) = false := by
              revert hskip; cases (rr == "" || decide (itemQty it ≤ 0)) <;> simp
            by_cases heq : rr = r
            · subst heq
              have hv : validQty (it :: rest) rr = itemQty it + validQty rest rr := by
                simp [validQty, hr, hskipf]
              rw [hv]
              simp only [stockLoop, hr, hskipf, Bool.false_eq_true, if_false]
              rw [ih, lookupStock_applyInc, if_pos rfl]
              cases hps : lookupStock ps rr <;> simp [hps] <;> ring
            · have hv : validQty (it :: rest) r = validQty rest r := by
                simp [validQty, hr, hskipf, heq]
              rw [hv]
              simp only [stockLoop, hr, hskipf, Bool.false_eq_true, if_false]
              rw [ih, lookupStock_applyInc, if_neg (fun hh => heq hh.symm)]

/-- C1 (amended): for a transition handled by `handleStockOnStatusChange`
on an order with a non-empty items list — if the new status is one of
ready/shipped/delivered and `stockDescontado` is not already true, each
refid's stock drops by the summed quantity of its valid line items (items
with a missing/empty refid or non-positive quantity are skipped) and the
returned update sets `stockDescontado := true`; if already true, nothing
changes; if the new status is cancelled and the flag is true, stock is
restored likewise and the update sets the flag false; if already false,
nothing changes.  Hence repeating the same qualifying transition adjusts
stock exactly once. -/
theorem handleStock_status_change_spec {α : Type} (order : Order)
    (newStatus : String) (st : OrderState α) :
    (STOCK_REQUIRED_STATUSES.contains newStatus = true →
     order.stockDescontado ≠ some true → order.items ≠ [] →
       (handleStockOnStatusChange order newStatus st).1 = some true ∧
       ∀ r, lookupStock (handleStockOnStatusChange order newStatus st).2.products r =
         (lookupStock st.products r).map (fun v => v - validQty order.items r)) ∧
    (STOCK_REQUIRED_STATUSES.contains newStatus = true →
     order.stockDescontado = some true →
       handleStockOnStatusChange order newStatus st = (none, st)) ∧
    (newStatus = "cancelled" → order.stockDescontado = some true →
     order.items ≠ [] →
       (handleStockOnStatusChange order newStatus st).1 = some false ∧
       ∀ r, lookupStock (handleStockOnStatusChange order newStatus st).2.products r =
         (lookupStock st.products r).map (fun v => v + validQty order.items r)) ∧
    (newStatus = "cancelled" → order.stockDescontado ≠ some true →
       handleStockOnStatusChange order newStatus st = (none, st)) := by
  refine ⟨?_, ?_, ?_, ?_⟩
  · intro hc hf hi
    have hcm : newStatus ∈ STOCK_REQUIRED_STATUSES := by simpa using hc
    have hred : handleStockOnStatusChange order newStatus st =
        (some true, ⟨stockLoop (-1) order.items st.products,
          (invalidatePattern st.cache "utiles/products").2⟩) := by
      simp [handleStockOnStatusChange, decrementStock, hcm, hf,
        List.isEmpty_iff, hi]
    refine ⟨by rw [hred], ?_⟩
    intro r
    simp only [hred]
    rw [lookupStock_stockLoop]
    cases hps : lookupStock st.products r <;> simp [hps] <;> ring
  · intro hc hf
    have hcm : newStatus ∈ STOCK_REQUIRED_STATUSES := by simpa using hc
    simp [handleStockOnStatusChange, decrementStock, hcm, hf]
  · intro hcan hf hi
    subst hcan
    have hncm : "cancelled" ∉ STOCK_REQUIRED_STATUSES := by decide
    have hred : handleStockOnStatusChange order "cancelled" st =
        (some false, ⟨stockLoop 1 order.items st.products,
          (invalidatePattern st.cache "utiles/products").2⟩) := by
      simp [handleStockOnStatusChange, restoreStock, hncm, hf,
        List.isEmpty_iff, hi]
    refine ⟨by rw [hred], ?_⟩
    intro r
    simp only [hred]
    rw [lookupStock_stockLoop]
    cases hps : lookupStock st.products r <;> simp [hps] <;> ring
  · intro hcan hf
    subst hcan
    have hncm : "cancelled" ∉ STOCK_REQUIRED_STATUSES := by decide
    simp [handleStockOnStatusChange, restoreStock, hncm, hf]

/-- Witness for C1: order with one valid item (refid A, quantity 3),
product A at stock 10; transition to `ready` flags the order and leaves
A at 7; a `cancelled` transition on the flagged order restores 10. -/
theorem handleStock_status_change_spec_witness :
    (handleStockOnStatusChange (Order.mk [Item.mk (some "A") (some 3)] none)
      "ready" (OrderState.mk [("A", 10)] ([] : CacheStore Nat))).1 = some true ∧
    lookupStock (handleStockOnStatusChange
      (Order.mk [Item.mk (some "A") (some 3)] none) "ready"
      (OrderState.mk [("A", 10)] ([] : CacheStore Nat))).2.products "A" = some 7 ∧
    (handleStockOnStatusChange (Order.mk [Item.mk (some "A") (some 3)] (some true))
      "cancelled" (OrderState.mk [("A", 7)] ([] : CacheStore Nat))).1 = some false ∧
    lookupStock (handleStockOnStatusChange
      (Order.mk [Item.mk (some "A") (some 3)] (some true)) "cancelled"
      (OrderState.mk [("A", 7)] ([] : CacheStore Nat))).2.products "A" = some 10 := by
  have h1 := (handleStock_status_change_spec
    (Order.mk [Item.mk (some "A") (some 3)] none) "ready"
    (OrderState.mk [("A", 10)] ([] : CacheStore Nat))).1
    (by decide) (by decide) (by decide)
  have h3 := (handleStock_status_change_spec
    (Order.mk [Item.mk (some "A") (some 3)] (some true)) "cancelled"
    (OrderState.mk [("A", 7)] ([] : CacheStore Nat))).2.2.1
    rfl (by decide) (by decide)
  refine ⟨h1.1, ?_, h3.1, ?_⟩
  · rw [h1.2 "A"]; decide
  · rw [h3.2 "A"]; decide

/-- C1 counterexample: on an order with an empty items list and
`stockDescontado` absent, a transition to `ready` (a qualifying status
with the flag not yet true) returns no stock update at all — the merged
`stockDescontado` stays absent instead of becoming true, and stock is
untouched. -/
theorem handleStock_empty_items_cex :
    STOCK_REQUIRED_STATUSES.contains "ready" = true ∧
    (Order.mk [] none).stockDescontado ≠ some true ∧
    (handleStockOnStatusChange (Order.mk [] none) "ready"
      (OrderState.mk [("A", 5)] ([] : CacheStore Nat))).1 = none ∧
    mergedFlag (Order.mk [] none)
      (handleStockOnStatusChange (Order.mk [] none) "ready"
        (OrderState.mk [("A", 5)] ([] : CacheStore Nat))).1 ≠ some true ∧
    (handleStockOnStatusChange (Order.mk [] none) "ready"
      (OrderState.mk [("A", 5)] ([] : CacheStore Nat))).2.products = [("A", 5)] := by
  exact ⟨by decide, by decide, by decide, by decide, by decide⟩

/-- C10: line items with a missing refid or a non-positive (or
non-numeric) quantity are skipped by the stock loop; an order with no
items makes `decrementStock`/`restoreStock` return `false` with the state
untouched, so the transition leaves `stockDescontado` unchanged; a
non-empty items list (whatever the items) still flips the flag. -/
theorem stock_items_skip_spec {α : Type} (order : Order) (st : OrderState α) :
    (∀ (it : Item) (rest : List Item) (sign : Int) (ps : Products),
        it.refid = none → stockLoop sign (it :: rest) ps = stockLoop sign rest ps) ∧
    (∀ (it : Item) (rest : List Item) (sign : Int) (ps : Products),
        itemQty it ≤ 0 → stockLoop sign (it :: rest) ps = stockLoop sign rest ps) ∧
    (order.items = [] →
        decrementStock order st = (false, st) ∧
        restoreStock order st = (false, st) ∧
        ∀ s, handleStockOnStatusChange order s st = (none, st)) ∧
    (order.items ≠ [] → order.stockDescontado ≠ some true →
        (decrementStock order st).1 = true) ∧
    (order.items ≠ [] → order.stockDescontado = some true →
        (restoreStock order st).1 = true) := by
  refine ⟨?_, ?_, ?_, ?_, ?_⟩
  · intro it rest sign ps h
    simp [stockLoop, h]
  · intro it rest sign ps hq
    cases hr : it.refid with
    | none => simp [stockLoop, hr]
    | some rr => simp [stockLoop, hr, hq]
  · intro hi
    refine ⟨?_, ?_, ?_⟩
    · by_cases hb : order.stockDescontado = some true <;>
        simp [decrementStock, hb, List.isEmpty_iff, hi]
    · by_cases hb : order.stockDescontado = some true <;>
        simp [restoreStock, hb, List.isEmpty_iff, hi]
    · intro s
      by_cases hc : s ∈ STOCK_REQUIRED_STATUSES
      · by_cases hb : order.stockDescontado = some true <;>
          simp [handleStockOnStatusChange, hc, decrementStock, hb,
            List.isEmpty_iff, hi]
      · by_cases hcan : s = "cancelled"
        · subst hcan
          by_cases hb : order.stockDescontado = some true <;>
            simp [handleStockOnStatusChange, hc, restoreStock, hb,
              List.isEmpty_iff, hi]
        · simp [handleStockOnStatusChange, hc, hcan]
  · intro hi hf
    simp [decrementStock, hf, List.isEmpty_iff, hi]
  · intro hi hf
    simp [restoreStock, hf, List.isEmpty_iff, hi]

/-- Witness for C10: a missing-refid item and a zero-quantity item are
skipped; the empty order is inert under every status; a non-empty order
with an (entirely skipped) item still reports a flip. -/
theorem stock_items_skip_spec_witness :
    stockLoop 1 [Item.mk none (some 5)] [("A", 3)] = [("A", 3)] ∧
    stockLoop 1 [Item.mk (some "A") (some 0)] [("A", 3)] = [("A", 3)] ∧
    handleStockOnStatusChange (Order.mk [] none) "shipped"
      (OrderState.mk [("A", 3)] ([] : CacheStore Nat)) =
      (none, OrderState.mk [("A", 3)] []) ∧
    (decrementStock (Order.mk [Item.mk none (some 5)] none)
      (OrderState.mk [("A", 3)] ([] : CacheStore Nat))).1 = true := by
  have h := stock_items_skip_spec (α := Nat) (Order.mk [] none)
    (OrderState.mk [("A", 3)] [])
  have h2 := stock_items_skip_spec (α := Nat)
    (Order.mk [Item.mk none (some 5)] none) (OrderState.mk [("A", 3)] [])
  refine ⟨?_, ?_, ?_, ?_⟩
  · exact h.1 (Item.mk none (some 5)) [] 1 [("A", 3)] rfl
  · exact h.2.1 (Item.mk (some "A") (some 0)) [] 1 [("A", 3)] (by decide)
  · exact (h.2.2.1 rfl).2.2 "shipped"
  · exact h2.2.2.2.1 (by decide) (by decide)

/-! ### C2: the stale-cache fallback of `getAll` -/

/-- C2 (code bug): the stale fallback of `getAll` can never serve.  With
an entry stored for the request's cache key: if the entry is expired at
request time, `cache.get` lazily deletes it during the initial cache
check, so when the datastore then fails the catch-block `getStale` finds
nothing and the failure is surfaced (`next(error)`), entry gone; if the
entry is unexpired, the datastore is never consulted at all and the
response is tagged `source:"cache"`, not `"cache-stale"`.  Both outcomes
contradict the claimed stale-cache success path. -/
theorem getAll_stale_fallback_dead_cex :
    alookup exampleStaleStore (getCacheKey "utiles" "products" []) =
      some ⟨exampleListResponse, 100, 50⟩ ∧
    (getAll "utiles" "products" [] 200 exampleStaleStore (.error ())).1 =
      .error () ∧
    (getAll "utiles" "products" [] 200 exampleStaleStore (.error ())).2 = [] ∧
    (getAll "utiles" "products" [] 60 exampleStaleStore (.error ())).1 =
      .ok (200, { exampleListResponse with
        meta := { exampleListResponse.meta with source := "cache" } }) := by
  exact ⟨rfl, rfl, rfl, rfl⟩

/-! ### C8: validation before any datastore call -/

/-- C8: `getOne`, `update`, `patch` and `remove` reject a malformed
document id with 400 while leaving the whole gateway state — documents,
datastore call counter and cache — untouched, and `removeMany` likewise
rejects an empty/missing filter body with 400, zero documents removed
and no datastore call. -/
theorem invalid_requests_no_datastore {α : Type} (st : GatewayState α)
    (database collection id : String) (body : Doc) (now : Int) :
    (isValidObjectId id = false →
        getOne st database collection id = (400, st) ∧
        update st database collection id body now = (400, st) ∧
        patch st database collection id body now = (400, st) ∧
        remove st database collection id = (400, st)) ∧
    removeMany st database collection [] = (400, 0, st) := by
  constructor
  · intro h
    refine ⟨?_, ?_, ?_, ?_⟩ <;> simp [getOne, update, patch, remove, h]
  · simp [removeMany]

/-- Witness for C8 at the malformed id `"xyz"` and an empty bulk-delete
filter, over a one-document store. -/
theorem invalid_requests_no_datastore_witness :
    getOne (GatewayState.mk [("d1", [("f", "1")])] 0 ([] : CacheStore Nat))
      "db" "col" "xyz" =
      (400, GatewayState.mk [("d1", [("f", "1")])] 0 []) ∧
    removeMany (GatewayState.mk [("d1", [("f", "1")])] 0 ([] : CacheStore Nat))
      "db" "col" [] =
      (400, 0, GatewayState.mk [("d1", [("f", "1")])] 0 []) := by
  have h := invalid_requests_no_datastore
    (GatewayState.mk [("d1", [("f", "1")])] 0 ([] : CacheStore Nat))
    "db" "col" "xyz" [] 0
  exact ⟨(h.1 (by decide)).1, h.2⟩

end UtilesBack
